import Mathlib

/-!
Shallow embedding of the turnix-firebase cloud functions (matchmaking,
match settlement, winner resolution).

Conventions used throughout:
* Firestore `Timestamp` values are modelled by their millisecond value
  (an `Int`); `Timestamp.now()` calls are passed in as explicit
  parameters (the explicit-completion transaction samples the clock twice,
  so it takes two such parameters).
* A nullable / possibly-absent field is an `Option`; for the fields this
  development touches, JavaScript truthiness coincides with `Option.isSome`
  (timestamps are objects, hence always truthy; a match `winner` is either
  a non-empty user id, `null`, or absent, so `if (winner)` is `isSome`).
* Firestore collections are association lists keyed by document id; a
  collection keeps its documents in document-id order, which is also the
  order Firestore uses to break ties in `orderBy` queries.
* `Array.prototype.sort(cmp)` (a stable sort driven by a comparator) is
  modelled by `List.insertionSort` on the relation `cmp a b ≤ 0`, which is
  stable and consistent with the comparator.
* A thrown JavaScript exception is an `Except.error` carrying the message.
-/

namespace Turnix



/-- JavaScript truthiness test (negated) for an optional string field:
`!x` is true when the field is absent, `null`, or the empty string. -/
def jsFalsyStr : Option String → Bool
  | none => true
  | some s => s == ""

/-- Stable comparator sort, as performed by `Array.prototype.sort(cmp)`:
element `a` is placed before `b` exactly when `cmp a b ≤ 0`. -/
def jsSort (cmp : α → α → Int) (l : List α) : List α :=
  List.insertionSort (fun a b => cmp a b ≤ 0) l

/-- A player's in-match state (`player_states[playerId]` on a match doc).
`progress` and `finished_at` may be absent (players that never reported). -/
structure PlayerState where
  username : Option String
  avatar : Option String
  progress : Option Int
  finished_at : Option Int
deriving DecidableEq

/-- A document of the `matches` collection. `winner` is `none` when the
field is absent or `null` (both falsy in the source). -/
structure Match where
  players : List String
  player_states : List (String × PlayerState)
  created_at : Option Int
  start_at : Option Int
  puzzle_id : Option String
  max_duration : Option Int
  winner : Option String
  isDraw : Option Bool
  completed_at : Option Int
deriving DecidableEq

/-- A document of the `match_history` collection, as built by both
settlement paths. -/
structure HistoryEntry where
  match_id : String
  player_id : String
  opponent_id : String
  opponent_username : Option String
  puzzle_id : Option String
  result : String
  player_progress : Int
  opponent_progress : Int
  player_finished_at : Option Int
  opponent_finished_at : Option Int
  match_duration : Int
  completed_at : Int
  created_at : Int
deriving DecidableEq

/-- A document of the `match_queue` collection (`userId` is the doc id). -/
structure QueueEntry where
  userId : String
  username : Option String
  avatar : Option String
  joined_at : Int
deriving DecidableEq

/-- `player_states[playerId]` map access. -/
def lookupState (player_states : List (String × PlayerState)) (playerId : String) :
    Option PlayerState :=
  (player_states.find? (fun e => e.1 == playerId)).map (fun e => e.2)

/-! ### Winner resolver (identical source in completeMatch and onMatchDeleted) -/

/-- One element of the `playerResults` array. -/
structure PlayerResult where
  playerId : String
  finishedAt : Option Int
  progress : Int
deriving DecidableEq

/-- `playerResults.push({playerId, finishedAt: playerState?.finished_at || null,
progress: playerState?.progress || 0})`. -/
def mkPlayerResult (player_states : List (String × PlayerState)) (playerId : String) :
    PlayerResult :=
  let playerState := lookupState player_states playerId
  { playerId := playerId
    finishedAt := playerState.bind (fun st => st.finished_at)
    progress := (playerState.bind (fun st => st.progress)).getD 0 }

/-- The sort comparator: finished players first (earlier `finishedAt`
first), then by descending `progress`. -/
def cmpResults (a b : PlayerResult) : Int :=
  match a.finishedAt, b.finishedAt with
  | some fa, some fb => fa - fb
  | some _, none => -1
  | none, some _ => 1
  | none, none => b.progress - a.progress

/-- The winner-or-draw decision taken on the two top-ranked entries of the
sorted `playerResults` array. -/
def pickWinner (firstPlayer secondPlayer : PlayerResult) : Option String :=
  if firstPlayer.finishedAt.isSome ∧ ¬ secondPlayer.finishedAt.isSome then
    some firstPlayer.playerId
  else if ¬ firstPlayer.finishedAt.isSome ∧ ¬ secondPlayer.finishedAt.isSome then
    if firstPlayer.progress > secondPlayer.progress then some firstPlayer.playerId
    else if firstPlayer.progress = secondPlayer.progress then none
    else some secondPlayer.playerId
  else if firstPlayer.finishedAt.isSome ∧ secondPlayer.finishedAt.isSome then
    some firstPlayer.playerId
  else none

/-- The TypeError raised when `playerResults[0]` or `playerResults[1]` is
`undefined` and its `finishedAt` property is read. -/
def undefinedDerefMsg : String := "TypeError: Cannot read properties of undefined"

/-- The winner-determination block shared verbatim by `completeMatch` and
`onMatchDeleted`: build `playerResults`, sort, compare the top two. With
fewer than two players the comparison dereferences an undefined array
element and throws. -/
def determineWinner (players : List String)
    (player_states : List (String × PlayerState)) : Except String (Option String) :=
  let playerResults := players.map (mkPlayerResult player_states)
  match jsSort cmpResults playerResults with
  | firstPlayer :: secondPlayer :: _ => .ok (pickWinner firstPlayer secondPlayer)
  | _ => .error undefinedDerefMsg

/-! ### History construction (identical source in both settlement paths) -/

/-- `matchDuration`: `completedAt.toMillis() - start_at.toMillis()` clamped
at 0; a missing `start_at` makes `.toMillis()` throw, which is caught and
yields 0. -/
def jsMatchDuration (completedAt : Int) (start_at : Option Int) : Int :=
  match start_at with
  | none => 0
  | some st => if completedAt - st < 0 then 0 else completedAt - st

/-- The history record built in the per-player loop body, for a given
player and the opponent found for them. -/
def historyEntryFor (matchId : String) (player_states : List (String × PlayerState))
    (created_at start_at : Option Int) (puzzle_id : Option String)
    (winner : Option String) (completedAt : Int)
    (playerId opponentId : String) : HistoryEntry :=
  let playerState := lookupState player_states playerId
  let opponentState := lookupState player_states opponentId
  let isDraw := winner.isNone
  let isWinner := !isDraw && (some playerId == winner)
  { match_id := matchId
    player_id := playerId
    opponent_id := opponentId
    opponent_username := opponentState.bind (fun st => st.username)
    puzzle_id := puzzle_id
    result := if isDraw then "draw" else if isWinner then "win" else "loss"
    player_progress := (playerState.bind (fun st => st.progress)).getD 0
    opponent_progress := (opponentState.bind (fun st => st.progress)).getD 0
    player_finished_at := playerState.bind (fun st => st.finished_at)
    opponent_finished_at := opponentState.bind (fun st => st.finished_at)
    match_duration := jsMatchDuration completedAt start_at
    completed_at := completedAt
    created_at := created_at.getD completedAt }

/-- The per-player history loop: for each player, find the first other
player as opponent (`players.find(p => p !== playerId)`); if none is
found, skip that player's entry (`continue`). -/
def buildHistoryEntries (matchId : String) (players : List String)
    (player_states : List (String × PlayerState))
    (created_at start_at : Option Int) (puzzle_id : Option String)
    (winner : Option String) (completedAt : Int) : List HistoryEntry :=
  players.filterMap fun playerId =>
    (players.find? (fun p => p != playerId)).map
      (historyEntryFor matchId player_states created_at start_at puzzle_id
        winner completedAt playerId)

/-! ### completeMatch (explicit settlement) -/

/-- The document store visible to the settlement coordinator. -/
structure Store where
  «matches» : List (String × Match)
  match_history : List HistoryEntry
deriving DecidableEq

/-- The value returned by the transaction callback of `completeMatch`
(which the caller of the function never sees: the source discards the
result of `db.runTransaction`). The `{success:false}` branch for an
existing document without data is unrepresentable in this store model. -/
inductive TxResult where
  | alreadyGone
  | alreadyResolved (winner : String)
  | settled (winner : Option String)
deriving DecidableEq

/-- The caller-visible request: `request.data.matchId` and
`request.auth?.uid`. -/
structure CompleteRequest where
  data_matchId : Option String
  auth_uid : Option String
deriving DecidableEq

/-- The object the callable returns to the caller. `winner` models the
optional `winner` property of the returned object (`none` = the object
carries no winner). -/
structure CompleteMatchResponse where
  success : Bool
  matchId : String
  winner : Option String
deriving DecidableEq

/-- The `completeMatch` transaction body. `now1` is the `Timestamp.now()`
written onto the match as `completed_at`; `now2` is the later
`Timestamp.now()` used as `completedAt` for the history entries. -/
def completeMatchTx (matchId : String) (now1 now2 : Int) (s : Store) :
    Except String (TxResult × Store) :=
  match s.«matches».find? (fun p => p.1 == matchId) with
  | none => .ok (.alreadyGone, s)
  | some (_, matchData) =>
    match matchData.winner with
    | some w => .ok (.alreadyResolved w, s)
    | none =>
      match determineWinner matchData.players matchData.player_states with
      | .error e => .error e
      | .ok winner =>
        .ok (.settled winner,
          { «matches» := s.«matches».map
              (fun p => if p.1 == matchId then
                 (p.1,
                  { matchData with
                      winner := winner
                      isDraw := some winner.isNone
                      completed_at := some now1 })
               else p)
            match_history := s.match_history ++
              buildHistoryEntries matchId matchData.players matchData.player_states
                matchData.created_at matchData.start_at matchData.puzzle_id
                winner now2 })

/-- The `completeMatch` callable: input validation, then the transaction
(whose result value is discarded), then `{success: true, matchId}` to the
caller. A transaction failure is rethrown with a wrapped message. -/
def completeMatch (req : CompleteRequest) (now1 now2 : Int) (s : Store) :
    Except String (CompleteMatchResponse × Store) :=
  if jsFalsyStr req.data_matchId then .error "matchId is required"
  else if jsFalsyStr req.auth_uid then .error "unauthenticated"
  else
    match req.data_matchId with
    | none => .error "matchId is required"
    | some matchId =>
      match completeMatchTx matchId now1 now2 s with
      | .error e => .error ("Failed to complete match: " ++ e)
      | .ok (_, s1) => .ok ({ success := true, matchId := matchId, winner := none }, s1)

/-! ### onMatchDeleted (removal-triggered settlement) -/

/-- The `if (!winner) { ... winner = winnerPlayerId }` step of the removal
path: a winner already on the snapshot is kept and resolution is skipped;
otherwise the winner resolver runs (and may throw). -/
def resolvedWinner (matchData : Match) : Except String (Option String) :=
  match matchData.winner with
  | some w => .ok (some w)
  | none => determineWinner matchData.players matchData.player_states

/-- The `onMatchDeleted` trigger: receives the pre-deletion snapshot and
the `match_history` collection; returns the collection after the handler
runs. A throw anywhere in the try block (in particular inside winner
determination) is logged and swallowed, leaving history unchanged. -/
def onMatchDeleted (matchId : String) (snap : Option Match) (now : Int)
    (match_history : List HistoryEntry) : List HistoryEntry :=
  match snap with
  | none => match_history
  | some matchData =>
    if matchData.players.isEmpty then match_history
    else
      match resolvedWinner matchData with
      | .error _ => match_history
      | .ok winner =>
          match_history ++
            buildHistoryEntries matchId matchData.players matchData.player_states
              matchData.created_at matchData.start_at matchData.puzzle_id winner now

/-! ### onQueueUpdated (pairing engine) -/

def QUEUE_TTL_SECONDS : Int := 45

/-- The implicit ordering of the `orderBy("joined_at")` query. Equal
`joined_at` values are left in collection (document-id) order, matching
Firestore's document-id tiebreak. -/
def cmpJoinedAt (a b : QueueEntry) : Int :=
  if a.joined_at < b.joined_at then -1
  else if b.joined_at < a.joined_at then 1
  else 0

/-- The candidate query inside the pairing transaction:
`where("joined_at", ">", cutoff).orderBy("joined_at").limit(2)`. -/
def candidateQuery (match_queue : List QueueEntry) (cutoff : Int) :
    List QueueEntry :=
  (jsSort cmpJoinedAt (match_queue.filter (fun e => cutoff < e.joined_at))).take 2

/-- `candidatesSnap.docs.find(doc => doc.id !== userId && doc.exists)`. -/
def findAvailablePartner (match_queue : List QueueEntry) (cutoff : Int)
    (userId : String) : Option QueueEntry :=
  (candidateQuery match_queue cutoff).find? (fun e => e.userId != userId)

/-- The document store visible to the pairing engine. -/
structure PairingStore where
  match_queue : List QueueEntry
  «matches» : List (String × Match)
deriving DecidableEq

/-- The pairing transaction body. `snap` is the triggering event's
after-snapshot (whose `username`/`avatar` seed the triggering player's
state); `matchId`, `startAt` and `puzzleId` are computed before the
transaction and passed in (`puzzleId` stands for the random draw). -/
def onQueueUpdatedTx (userId : String) (snap : QueueEntry) (now : Int)
    (matchId : String) (startAt : Int) (puzzleId : String)
    (s : PairingStore) : PairingStore :=
  let cutoff := now - QUEUE_TTL_SECONDS * 1000
  match s.match_queue.find? (fun e => e.userId == userId) with
  | none => s
  | some _ =>
    match findAvailablePartner s.match_queue cutoff userId with
    | none => s
    | some availablePartner =>
      match s.match_queue.find? (fun e => e.userId == availablePartner.userId) with
      | none => s
      | some partnerQueueDoc =>
        let newMatch : Match :=
          { players := [userId, availablePartner.userId]
            start_at := some startAt
            puzzle_id := some puzzleId
            created_at := some now
            max_duration := some 85
            player_states :=
              [(userId,
                { username := snap.username, avatar := snap.avatar,
                  progress := none, finished_at := none }),
               (availablePartner.userId,
                { username := partnerQueueDoc.username,
                  avatar := partnerQueueDoc.avatar,
                  progress := none, finished_at := none })]
            winner := none
            isDraw := none
            completed_at := none }
        { match_queue := s.match_queue.filter
            (fun e => e.userId != userId && e.userId != availablePartner.userId)
          «matches» := s.«matches» ++ [(matchId, newMatch)] }

/-- The `onQueueUpdated` trigger: a missing / deleted after-snapshot
returns without running the transaction. -/
def onQueueUpdated (userId : String) (snap : Option QueueEntry) (now : Int)
    (matchId : String) (startAt : Int) (puzzleId : String)
    (s : PairingStore) : PairingStore :=
  match snap with
  | none => s
  | some snapData => onQueueUpdatedTx userId snapData now matchId startAt puzzleId s

/-! ### Ordering facts for the candidate query relation -/

instance : IsTotal QueueEntry (fun a b => cmpJoinedAt a b ≤ 0) :=
  ⟨fun a b => by unfold cmpJoinedAt; split_ifs <;> omega⟩

instance : IsTrans QueueEntry (fun a b => cmpJoinedAt a b ≤ 0) :=
  ⟨fun a b c hab hbc => by
    simp only [cmpJoinedAt] at hab hbc ⊢
    split_ifs at hab hbc ⊢ <;> omega⟩

/-! ### Concrete sample documents used by witnesses and counterexamples -/

/-- A player state with progress 50 that never finished. -/
def stateP50 : PlayerState :=
  { username := some "A", avatar := none, progress := some 50, finished_at := none }

/-- A two-player match that will resolve as a draw (both unfinished, equal
progress), `winner` unset. -/
def c1Match : Match :=
  { players := ["alice", "bob"]
    player_states := [("alice", stateP50), ("bob", { stateP50 with username := some "B" })]
    created_at := some 900
    start_at := some 1000
    puzzle_id := some "cls:42"
    max_duration := some 85
    winner := none
    isDraw := none
    completed_at := none }

def c1Store : Store := { «matches» := [("m1", c1Match)], match_history := [] }

def c1Req : CompleteRequest := { data_matchId := some "m1", auth_uid := some "alice" }

/-- First explicit-completion call on the draw match. -/
def c1Run1 : Except String (CompleteMatchResponse × Store) :=
  completeMatch c1Req 2000 2001 c1Store

/-- Second explicit-completion call, on the store the first call left. -/
def c1Run2 : Except String (CompleteMatchResponse × Store) :=
  match c1Run1 with
  | .ok (_, s1) => completeMatch c1Req 3000 3001 s1
  | .error e => .error e

/-- Number of history entries for match m1 after a run. -/
def c1HistoryCount (r : Except String (CompleteMatchResponse × Store)) : Option Nat :=
  r.toOption.map (fun p => (p.2.match_history.filter (fun e => e.match_id == "m1")).length)

/-- The m1 match document after a run. -/
def c1MatchAfter (r : Except String (CompleteMatchResponse × Store)) : Option Match :=
  r.toOption.bind (fun p => (p.2.«matches».find? (fun q => q.1 == "m1")).map (fun q => q.2))

/-- A deleted-match snapshot with a single-element `players` array whose
winner is already set. -/
def c2Match : Match :=
  { players := ["solo"]
    player_states := [("solo", stateP50)]
    created_at := some 1
    start_at := some 2
    puzzle_id := some "cls:21"
    max_duration := some 85
    winner := some "solo"
    isDraw := some false
    completed_at := some 3 }

/-- A two-distinct-player match whose winner is already set (settled by
the explicit path). -/
def c2wMatch : Match :=
  { c1Match with winner := some "alice", isDraw := some false, completed_at := some 1500 }

/-- Queue for the C4 witness: one stale entry (joined before the cutoff)
and two fresh ones. -/
def c4Queue : List QueueEntry :=
  [⟨"u1", none, none, 500⟩, ⟨"u2", none, none, 46000⟩, ⟨"u3", none, none, 45500⟩]

/-- Pairing store for the C5 witness: the triggering user is not queued. -/
def c5Store : PairingStore :=
  { match_queue := [⟨"other", none, none, 100⟩], «matches» := [] }

def c5Snap : QueueEntry := ⟨"gone", some "G", none, 50⟩

/-- Store for C6: match m6 already has a winner. -/
def c6Store : Store :=
  { «matches» := [("m6", { c1Match with winner := some "alice" })], match_history := [] }

def c6Req : CompleteRequest := { data_matchId := some "m6", auth_uid := some "bob" }

/-- Match for the C10 witness: one player, winner unset. -/
def c10Match : Match :=
  { c1Match with players := ["solo"], player_states := [("solo", stateP50)] }

/-- Match for the C8 witness: settled, but with no creation timestamp. -/
def c8Match : Match :=
  { c1Match with created_at := none, winner := some "alice", isDraw := some false }

/-! ## Helper lemmas -/

/-- A stable comparator sort of a two-element array swaps the elements
exactly when the comparator is positive on them. -/
theorem jsSort_pair (cmp : α → α → Int) (x y : α) :
    jsSort cmp [x, y] = if cmp x y ≤ 0 then [x, y] else [y, x] := by
  simp [jsSort, List.insertionSort, List.orderedInsert]

/-- Finding the opponent in a two-player array: the triggering player is
skipped, the other player is found. -/
theorem find?_opponent_pair (a b : String) (hab : a ≠ b) :
    [a, b].find? (fun p => p != a) = some b ∧
    [a, b].find? (fun p => p != b) = some a := by
  constructor
  · rw [List.find?_cons_of_neg _ (by simp), List.find?_cons_of_pos _ (by simp [bne_iff_ne, Ne.symm hab])]
  · rw [List.find?_cons_of_pos _ (by simp [bne_iff_ne, hab])]

/-- `buildHistoryEntries` on a two-distinct-player array produces exactly
one entry per player, each with the other as opponent. -/
theorem buildHistoryEntries_pair (matchId a b : String) (hab : a ≠ b)
    (player_states : List (String × PlayerState)) (created_at start_at : Option Int)
    (puzzle_id : Option String) (winner : Option String) (completedAt : Int) :
    buildHistoryEntries matchId [a, b] player_states created_at start_at puzzle_id
        winner completedAt =
      [historyEntryFor matchId player_states created_at start_at puzzle_id winner
         completedAt a b,
       historyEntryFor matchId player_states created_at start_at puzzle_id winner
         completedAt b a] := by
  obtain ⟨h1, h2⟩ := find?_opponent_pair a b hab
  simp [buildHistoryEntries, h1, h2]

/-- Every entry produced by `buildHistoryEntries` is a `historyEntryFor`
record for some player/opponent pair. -/
theorem mem_buildHistoryEntries {matchId : String} {players : List String}
    {player_states : List (String × PlayerState)} {created_at start_at : Option Int}
    {puzzle_id : Option String} {winner : Option String} {completedAt : Int}
    {e : HistoryEntry}
    (he : e ∈ buildHistoryEntries matchId players player_states created_at start_at
        puzzle_id winner completedAt) :
    ∃ p o, e = historyEntryFor matchId player_states created_at start_at puzzle_id
        winner completedAt p o := by
  simp only [buildHistoryEntries, List.mem_filterMap] at he
  obtain ⟨p, _, hfind⟩ := he
  rw [Option.map_eq_some'] at hfind
  obtain ⟨o, _, hfo⟩ := hfind
  exact ⟨p, o, hfo.symm⟩

/-- Every history entry added by the removal path is a `historyEntryFor`
record built from the snapshot's fields. -/
theorem onMatchDeleted_new_entry {matchId : String} {m : Match} {now : Int}
    {h : List HistoryEntry} {e : HistoryEntry}
    (he : e ∈ onMatchDeleted matchId (some m) now h) (hne : e ∉ h) :
    ∃ w p o, e = historyEntryFor matchId m.player_states m.created_at m.start_at
        m.puzzle_id w now p o := by
  unfold onMatchDeleted at he
  split at he
  · exact absurd he hne
  · rename_i snap matchData heq
    injection heq with heqm
    subst heqm
    split at he
    · exact absurd he hne
    · split at he
      · exact absurd he hne
      · rcases List.mem_append.mp he with hl | hr
        · exact absurd hl hne
        · obtain ⟨p, o, hpo⟩ := mem_buildHistoryEntries hr
          exact ⟨_, p, o, hpo⟩

/-- Every history entry added by the explicit-completion transaction is a
`historyEntryFor` record built from the fields of the match the
transaction read. -/
theorem completeMatchTx_new_entry {mid : String} {now1 now2 : Int} {s : Store}
    {tr : TxResult} {s1 : Store} {e : HistoryEntry}
    (htx : completeMatchTx mid now1 now2 s = .ok (tr, s1))
    (he : e ∈ s1.match_history) (hne : e ∉ s.match_history) :
    ∃ mp w p o, s.«matches».find? (fun q => q.1 == mid) = some mp ∧
      e = historyEntryFor mid mp.2.player_states mp.2.created_at mp.2.start_at
        mp.2.puzzle_id w now2 p o := by
  unfold completeMatchTx at htx
  split at htx
  · simp only [Except.ok.injEq, Prod.mk.injEq] at htx
    exact absurd (htx.2 ▸ he) hne
  · rename_i mid1 matchData hfind
    split at htx
    · simp only [Except.ok.injEq, Prod.mk.injEq] at htx
      exact absurd (htx.2 ▸ he) hne
    · split at htx
      · exact absurd htx (by simp)
      · rename_i winner hdw
        simp only [Except.ok.injEq, Prod.mk.injEq] at htx
        rw [← htx.2] at he
        rcases List.mem_append.mp he with hl | hr
        · exact absurd hl hne
        · obtain ⟨p, o, hpo⟩ := mem_buildHistoryEntries hr
          exact ⟨(mid1, matchData), winner, p, o, hfind, hpo⟩

/-- Every history entry added by a successful `completeMatch` call is a
`historyEntryFor` record built from a match document of the store. -/
theorem completeMatch_new_entry {req : CompleteRequest} {now1 now2 : Int} {s : Store}
    {r : CompleteMatchResponse} {s1 : Store} {e : HistoryEntry}
    (hcm : completeMatch req now1 now2 s = .ok (r, s1))
    (he : e ∈ s1.match_history) (hne : e ∉ s.match_history) :
    ∃ mp w p o, mp ∈ s.«matches» ∧
      e = historyEntryFor mp.1 mp.2.player_states mp.2.created_at mp.2.start_at
        mp.2.puzzle_id w now2 p o := by
  unfold completeMatch at hcm
  split at hcm
  · exact absurd hcm (by simp)
  · split at hcm
    · exact absurd hcm (by simp)
    · split at hcm
      · exact absurd hcm (by simp)
      · rename_i mid hd
        split at hcm
        · exact absurd hcm (by simp)
        · rename_i tr s2 htx
          simp only [Except.ok.injEq, Prod.mk.injEq] at hcm
          rw [← hcm.2] at he
          obtain ⟨mp, w, p, o, hfind, hpo⟩ := completeMatchTx_new_entry htx he hne
          have hkey : mp.1 = mid := by
            have := List.find?_some hfind
            simpa using this
          exact ⟨mp, w, p, o, List.mem_of_find?_eq_some hfind, hkey ▸ hpo⟩

/-! ## Claims -/

/-- Claim C1 (code bug): explicit completion is NOT idempotent when the
first call resolves the match as a draw. The first call on the concrete
draw match writes 2 history entries and marks the match resolved
(winner = null, isDraw = true, completed_at set), but because the guard
`if (winner)` treats the null winner as unset, the second call resolves
again and writes 2 more entries: 4 in total instead of 2. -/
theorem C1_completion_not_idempotent_on_draw :
    c1HistoryCount c1Run1 = some 2 ∧
    (c1MatchAfter c1Run1).map (fun m => m.winner) = some none ∧
    (c1MatchAfter c1Run1).map (fun m => m.isDraw) = some (some true) ∧
    (c1MatchAfter c1Run1).map (fun m => m.completed_at) = some (some 2000) ∧
    c1HistoryCount c1Run2 = some 4 :=
  ⟨rfl, rfl, rfl, rfl, rfl⟩

/-- Claim C2, counterexample: a deleted snapshot with the non-empty
players array ["solo"] and winner already set skips resolution but writes
zero history entries (no opponent is found, the loop body is skipped), not
one entry per player. -/
theorem C2_counterexample_singleton :
    c2Match.players = ["solo"] ∧
    c2Match.winner = some "solo" ∧
    onMatchDeleted "m2" (some c2Match) 100 [] = [] ∧
    (onMatchDeleted "m2" (some c2Match) 100 []).length ≠ c2Match.players.length :=
  ⟨rfl, rfl, rfl, by decide⟩

/-- Claim C2 (amended): in the removal path, for a deleted snapshot with
two distinct players whose winner is already set, the resolution step is
skipped (the entries are built from the stored winner) and one history
entry per player is still written unconditionally, duplicating history for
an already-settled match. -/
theorem C2_removal_writes_history_unconditionally
    (matchId a b w : String) (m : Match) (now : Int) (h : List HistoryEntry)
    (hp : m.players = [a, b]) (hab : a ≠ b) (hw : m.winner = some w) :
    onMatchDeleted matchId (some m) now h =
      h ++ [historyEntryFor matchId m.player_states m.created_at m.start_at
              m.puzzle_id (some w) now a b,
            historyEntryFor matchId m.player_states m.created_at m.start_at
              m.puzzle_id (some w) now b a] ∧
    (onMatchDeleted matchId (some m) now h).length = h.length + 2 ∧
    (historyEntryFor matchId m.player_states m.created_at m.start_at
       m.puzzle_id (some w) now a b).result = (if a = w then "win" else "loss") ∧
    (historyEntryFor matchId m.player_states m.created_at m.start_at
       m.puzzle_id (some w) now b a).result = (if b = w then "win" else "loss") := by
  have hmain : onMatchDeleted matchId (some m) now h =
      h ++ [historyEntryFor matchId m.player_states m.created_at m.start_at
              m.puzzle_id (some w) now a b,
            historyEntryFor matchId m.player_states m.created_at m.start_at
              m.puzzle_id (some w) now b a] := by
    simp only [onMatchDeleted]
    rw [hp]
    rw [if_neg (by simp)]
    simp only [resolvedWinner, hw]
    rw [buildHistoryEntries_pair matchId a b hab m.player_states
      m.created_at m.start_at m.puzzle_id (some w) now]
  have hres : ∀ x : String,
      (historyEntryFor matchId m.player_states m.created_at m.start_at
        m.puzzle_id (some w) now x b).result = (if x = w then "win" else "loss") := by
    intro x
    simp only [historyEntryFor, Option.isNone_some, Bool.not_false, Bool.true_and]
    by_cases hxw : x = w
    · simp [hxw]
    · simp [hxw]
  constructor
  · exact hmain
  refine ⟨by rw [hmain]; simp, ?_, ?_⟩
  · simpa using hres a
  · simp only [historyEntryFor, Option.isNone_some, Bool.not_false, Bool.true_and]
    by_cases hbw : b = w
    · simp [hbw]
    · simp [hbw]

/-- Claim C2, witness: concrete application of the amended theorem to a
settled two-player match. -/
theorem C2_removal_witness :
    (onMatchDeleted "mW" (some c2wMatch) 1600 []).length = 0 + 2 :=
  (C2_removal_writes_history_unconditionally "mW" "alice" "bob" "alice"
    c2wMatch 1600 [] rfl (by decide) rfl).2.1

/-- Claim C5: if the triggering player's own queue entry is absent when
re-read inside the pairing transaction, the transaction (and the whole
handler) is a silent no-op: the store is returned unchanged, with no match
created and no queue entry deleted, and no error channel exists (the
handler catches everything). Re-delivery for an already-paired (hence
deleted) entry is therefore a no-op. -/
theorem C5_missing_own_entry_noop (userId : String) (snap : QueueEntry)
    (now : Int) (matchId : String) (startAt : Int) (puzzleId : String)
    (s : PairingStore)
    (habsent : s.match_queue.find? (fun e => e.userId == userId) = none) :
    onQueueUpdatedTx userId snap now matchId startAt puzzleId s = s ∧
    onQueueUpdated userId (some snap) now matchId startAt puzzleId s = s := by
  have h1 : onQueueUpdatedTx userId snap now matchId startAt puzzleId s = s := by
    unfold onQueueUpdatedTx
    rw [habsent]
  exact ⟨h1, h1⟩

/-- Claim C5, witness: a store in which user "gone" has no queue entry. -/
theorem C5_witness :
    onQueueUpdatedTx "gone" c5Snap 1000 "mX" 6000 "cls:22" c5Store = c5Store ∧
    onQueueUpdated "gone" (some c5Snap) 1000 "mX" 6000 "cls:22" c5Store = c5Store :=
  C5_missing_own_entry_noop "gone" c5Snap 1000 "mX" 6000 "cls:22" c5Store rfl

/-- Claim C9: `completeMatch` rejects a falsy (missing) `matchId` with the
error "matchId is required", and — when `matchId` is present — a missing
authenticated uid with "unauthenticated"; in both cases the result is the
same for every store (no store read or write happens: the checks precede
the transaction and an error carries no store). -/
theorem C9_validation_before_store :
    (∀ (req : CompleteRequest) (now1 now2 : Int) (s : Store),
       jsFalsyStr req.data_matchId = true →
       completeMatch req now1 now2 s = .error "matchId is required") ∧
    (∀ (req : CompleteRequest) (now1 now2 : Int) (s : Store),
       jsFalsyStr req.data_matchId = false → jsFalsyStr req.auth_uid = true →
       completeMatch req now1 now2 s = .error "unauthenticated") := by
  constructor
  · intro req now1 now2 s h
    unfold completeMatch
    rw [if_pos h]
  · intro req now1 now2 s h1 h2
    unfold completeMatch
    rw [if_neg (by simp [h1]), if_pos h2]

/-- Claim C9, witness: a request without matchId, and one with a matchId
but no authenticated caller. -/
theorem C9_witness :
    completeMatch { data_matchId := none, auth_uid := some "u" } 0 0 c1Store =
      .error "matchId is required" ∧
    completeMatch { data_matchId := some "m1", auth_uid := none } 0 0 c1Store =
      .error "unauthenticated" :=
  ⟨C9_validation_before_store.1 _ 0 0 c1Store rfl,
   C9_validation_before_store.2 _ 0 0 c1Store rfl rfl⟩

/-- Claim C6, counterexample: for a match whose winner is already set
("alice"), `completeMatch` succeeds without resolution or history write,
but the value returned to the caller is `{success, matchId}` only — the
transaction callback's `{success, winner, matchId}` is discarded, so the
existing winner is NOT included in the caller-facing value. -/
theorem C6_counterexample_winner_not_returned :
    (c6Store.«matches».find? (fun p => p.1 == "m6")).map (fun p => p.2.winner) =
      some (some "alice") ∧
    completeMatch c6Req 10 11 c6Store =
      .ok ({ success := true, matchId := "m6", winner := none }, c6Store) ∧
    ({ success := true, matchId := "m6", winner := none } :
        CompleteMatchResponse).winner ≠ some "alice" :=
  ⟨rfl, rfl, by decide⟩

/-- Claim C6 (amended): when `completeMatch` is called for a match whose
winner is already set, the transaction skips resolution and history
writing, its callback's value carries the existing winner, and the store
is unchanged — but the value returned to the caller is
`{success: true, matchId}` without the winner. -/
theorem C6_already_resolved_skips_resolution (req : CompleteRequest)
    (now1 now2 : Int) (s : Store) (mid w : String) (m : Match)
    (h1 : req.data_matchId = some mid)
    (h2 : jsFalsyStr req.data_matchId = false)
    (h3 : jsFalsyStr req.auth_uid = false)
    (h4 : s.«matches».find? (fun p => p.1 == mid) = some (mid, m))
    (h5 : m.winner = some w) :
    completeMatchTx mid now1 now2 s = .ok (.alreadyResolved w, s) ∧
    completeMatch req now1 now2 s =
      .ok ({ success := true, matchId := mid, winner := none }, s) := by
  have htx : completeMatchTx mid now1 now2 s = .ok (.alreadyResolved w, s) := by
    unfold completeMatchTx
    rw [h4]
    simp [h5]
  refine ⟨htx, ?_⟩
  unfold completeMatch
  rw [if_neg (by simp [h2]), if_neg (by simp [h3]), h1]
  simp [htx]

/-- Claim C6, witness: concrete application of the amended theorem. -/
theorem C6_witness :
    completeMatch c6Req 10 11 c6Store =
      .ok ({ success := true, matchId := "m6", winner := none }, c6Store) :=
  (C6_already_resolved_skips_resolution c6Req 10 11 c6Store "m6" "alice"
    { c1Match with winner := some "alice" } rfl rfl rfl rfl rfl).2

/-! ## Winner-resolver computation lemmas -/

/-- `playerResults` entry for the first player of a two-player state map. -/
theorem mkPlayerResult_pair_left (a b : String) (sa sb : PlayerState) :
    mkPlayerResult [(a, sa), (b, sb)] a =
      { playerId := a, finishedAt := sa.finished_at, progress := sa.progress.getD 0 } := by
  simp [mkPlayerResult, lookupState]

/-- `playerResults` entry for the second player of a two-player state map. -/
theorem mkPlayerResult_pair_right (a b : String) (sa sb : PlayerState) (hab : a ≠ b) :
    mkPlayerResult [(a, sa), (b, sb)] b =
      { playerId := b, finishedAt := sb.finished_at, progress := sb.progress.getD 0 } := by
  simp [mkPlayerResult, lookupState, hab]

/-- Winner determination over exactly two players: sort the two results
and compare them. -/
theorem determineWinner_pair (a b : String) (states : List (String × PlayerState)) :
    determineWinner [a, b] states =
      .ok (if cmpResults (mkPlayerResult states a) (mkPlayerResult states b) ≤ 0
           then pickWinner (mkPlayerResult states a) (mkPlayerResult states b)
           else pickWinner (mkPlayerResult states b) (mkPlayerResult states a)) := by
  unfold determineWinner
  simp only [List.map_cons, List.map_nil]
  rw [jsSort_pair]
  by_cases hc : cmpResults (mkPlayerResult states a) (mkPlayerResult states b) ≤ 0
  · rw [if_pos hc, if_pos hc]
  · rw [if_neg hc, if_neg hc]

/-- With fewer than two players, winner determination dereferences an
undefined element of the sorted results array and throws. -/
theorem determineWinner_short (players : List String)
    (states : List (String × PlayerState)) (hlt : players.length < 2) :
    determineWinner players states = .error undefinedDerefMsg := by
  simp only [determineWinner]
  have hlen : (jsSort cmpResults (players.map (mkPlayerResult states))).length < 2 := by
    unfold jsSort
    rw [(List.perm_insertionSort _ _).length_eq, List.length_map]
    exact hlt
  rcases hs : jsSort cmpResults (players.map (mkPlayerResult states)) with _ | ⟨x, _ | ⟨y, rest⟩⟩
  · rfl
  · rfl
  · rw [hs] at hlen
    simp only [List.length_cons] at hlen
    omega

/-- With at least two players, winner determination always completes
normally. -/
theorem determineWinner_long (players : List String)
    (states : List (String × PlayerState)) (hge : 2 ≤ players.length) :
    ∃ w, determineWinner players states = .ok w := by
  simp only [determineWinner]
  have hlen : (jsSort cmpResults (players.map (mkPlayerResult states))).length =
      players.length := by
    unfold jsSort
    rw [(List.perm_insertionSort _ _).length_eq, List.length_map]
  rcases hs : jsSort cmpResults (players.map (mkPlayerResult states)) with _ | ⟨x, _ | ⟨y, rest⟩⟩
  · rw [hs] at hlen; simp only [List.length_nil] at hlen; omega
  · rw [hs] at hlen; simp only [List.length_cons, List.length_nil] at hlen; omega
  · exact ⟨pickWinner x y, rfl⟩

/-- Claim C3: winner determination for exactly two players with winner
unset (`.ok none` models the draw outcome, written as winner = null with
isDraw = true): a uniquely finished player wins; two unfinished players
draw on equal progress and the higher progress wins otherwise; two
finished players with distinct timestamps are won by the earlier
finisher. -/
theorem C3_winner_determination (a b : String) (sa sb : PlayerState) (hab : a ≠ b) :
    (∀ ta, sa.finished_at = some ta → sb.finished_at = none →
       determineWinner [a, b] [(a, sa), (b, sb)] = .ok (some a)) ∧
    (∀ tb, sa.finished_at = none → sb.finished_at = some tb →
       determineWinner [a, b] [(a, sa), (b, sb)] = .ok (some b)) ∧
    (sa.finished_at = none → sb.finished_at = none →
       ((sa.progress.getD 0 = sb.progress.getD 0 →
           determineWinner [a, b] [(a, sa), (b, sb)] = .ok none) ∧
        (sa.progress.getD 0 > sb.progress.getD 0 →
           determineWinner [a, b] [(a, sa), (b, sb)] = .ok (some a)) ∧
        (sa.progress.getD 0 < sb.progress.getD 0 →
           determineWinner [a, b] [(a, sa), (b, sb)] = .ok (some b)))) ∧
    (∀ ta tb, sa.finished_at = some ta → sb.finished_at = some tb →
       ((ta < tb → determineWinner [a, b] [(a, sa), (b, sb)] = .ok (some a)) ∧
        (tb < ta → determineWinner [a, b] [(a, sa), (b, sb)] = .ok (some b)))) := by
  have hL := mkPlayerResult_pair_left a b sa sb
  have hR := mkPlayerResult_pair_right a b sa sb hab
  refine ⟨?_, ?_, ?_, ?_⟩
  · intro ta h1 h2
    rw [determineWinner_pair, hL, hR, h1, h2]
    simp [cmpResults, pickWinner]
  · intro tb h1 h2
    rw [determineWinner_pair, hL, hR, h1, h2]
    simp [cmpResults, pickWinner]
  · intro h1 h2
    refine ⟨?_, ?_, ?_⟩
    · intro hp
      rw [determineWinner_pair, hL, hR, h1, h2]
      simp only [cmpResults]
      rw [if_pos (by omega)]
      simp [pickWinner, hp]
    · intro hp
      rw [determineWinner_pair, hL, hR, h1, h2]
      simp only [cmpResults]
      rw [if_pos (by omega)]
      simp [pickWinner, hp]
    · intro hp
      rw [determineWinner_pair, hL, hR, h1, h2]
      simp only [cmpResults]
      rw [if_neg (by omega)]
      simp [pickWinner, hp]
  · intro ta tb h1 h2
    constructor
    · intro hlt
      rw [determineWinner_pair, hL, hR, h1, h2]
      simp only [cmpResults]
      rw [if_pos (by omega)]
      simp [pickWinner]
    · intro hlt
      rw [determineWinner_pair, hL, hR, h1, h2]
      simp only [cmpResults]
      rw [if_neg (by omega)]
      simp [pickWinner]

/-- Claim C3, witness: the spec's own examples, A(finishedAt=10,
progress=80) vs B(finishedAt=null, progress=95) resolves to A. -/
theorem C3_witness :
    determineWinner ["a", "b"]
      [("a", ⟨some "A", none, some 80, some 10⟩),
       ("b", ⟨some "B", none, some 95, none⟩)] = .ok (some "a") :=
  (C3_winner_determination "a" "b" ⟨some "A", none, some 80, some 10⟩
    ⟨some "B", none, some 95, none⟩ (by decide)).1 10 rfl rfl

/-- Claim C10: with winner unset and a single-element players array, the
winner-determination step of both settlement paths dereferences the
undefined second ranked result and throws; settlement completes normally
exactly when there are at least two players. The explicit path surfaces
the throw as a wrapped error to the caller; the removal path logs and
swallows it, writing nothing. -/
theorem C10_single_player_throws :
    (∀ (a : String) (states : List (String × PlayerState)),
       determineWinner [a] states = .error undefinedDerefMsg) ∧
    (∀ (players : List String) (states : List (String × PlayerState)),
       players.length < 2 → determineWinner players states = .error undefinedDerefMsg) ∧
    (∀ (players : List String) (states : List (String × PlayerState)),
       2 ≤ players.length → ∃ w, determineWinner players states = .ok w) ∧
    (∀ (req : CompleteRequest) (now1 now2 : Int) (s : Store) (mid : String)
       (m : Match) (a : String),
       req.data_matchId = some mid → jsFalsyStr req.data_matchId = false →
       jsFalsyStr req.auth_uid = false →
       s.«matches».find? (fun p => p.1 == mid) = some (mid, m) →
       m.winner = none → m.players = [a] →
       completeMatch req now1 now2 s =
         .error ("Failed to complete match: " ++ undefinedDerefMsg)) ∧
    (∀ (matchId : String) (m : Match) (now : Int) (h : List HistoryEntry)
       (a : String), m.players = [a] → m.winner = none →
       onMatchDeleted matchId (some m) now h = h) := by
  refine ⟨?_, ?_, ?_, ?_, ?_⟩
  · intro a states
    exact determineWinner_short [a] states (by simp)
  · intro players states hlt
    exact determineWinner_short players states hlt
  · intro players states hge
    exact determineWinner_long players states hge
  · intro req now1 now2 s mid m a h1 h2 h3 h4 h5 hp
    have htx : completeMatchTx mid now1 now2 s = .error undefinedDerefMsg := by
      simp only [completeMatchTx, h4, h5, hp,
        determineWinner_short [a] m.player_states (by simp)]
    unfold completeMatch
    rw [if_neg (by simp [h2]), if_neg (by simp [h3]), h1]
    simp [htx]
  · intro matchId m now h a hp hw
    simp only [onMatchDeleted]
    rw [hp, if_neg (by simp)]
    simp [resolvedWinner, hw, hp,
      determineWinner_short [a] m.player_states (by simp)]

/-- Claim C10, witness: a one-player match with winner unset makes the
resolver throw, and the removal path swallows it writing no history. -/
theorem C10_witness :
    determineWinner ["solo"] [] = .error undefinedDerefMsg ∧
    onMatchDeleted "m10" (some c10Match) 7 [] = [] :=
  ⟨C10_single_player_throws.1 "solo" [],
   C10_single_player_throws.2.2.2.2 "m10" c10Match 7 [] "solo" rfl rfl⟩

/-- Claim C7: `matchDuration` is computed as the clamped difference
`max(0, completedAt − startAt)`, with a missing `start_at` giving 0, and
every history entry written by either settlement path carries exactly that
value — hence `match_duration` is never negative. -/
theorem C7_match_duration_clamped :
    (∀ (completedAt : Int) (st : Option Int), 0 ≤ jsMatchDuration completedAt st) ∧
    (∀ completedAt : Int, jsMatchDuration completedAt none = 0) ∧
    (∀ completedAt st : Int, 0 ≤ completedAt - st →
       jsMatchDuration completedAt (some st) = completedAt - st) ∧
    (∀ completedAt st : Int, completedAt - st < 0 →
       jsMatchDuration completedAt (some st) = 0) ∧
    (∀ (matchId : String) (m : Match) (now : Int) (h : List HistoryEntry)
       (e : HistoryEntry), e ∈ onMatchDeleted matchId (some m) now h → e ∉ h →
       e.match_duration = jsMatchDuration now m.start_at ∧ 0 ≤ e.match_duration) ∧
    (∀ (req : CompleteRequest) (now1 now2 : Int) (s : Store)
       (r : CompleteMatchResponse) (s1 : Store) (e : HistoryEntry),
       completeMatch req now1 now2 s = .ok (r, s1) →
       e ∈ s1.match_history → e ∉ s.match_history →
       0 ≤ e.match_duration ∧
       ∃ mp, mp ∈ s.«matches» ∧ e.match_duration = jsMatchDuration now2 mp.2.start_at) := by
  have hnn : ∀ (c : Int) (st : Option Int), 0 ≤ jsMatchDuration c st := by
    intro c st
    rcases st with _ | v
    · simp [jsMatchDuration]
    · simp only [jsMatchDuration]
      split_ifs <;> omega
  refine ⟨hnn, ?_, ?_, ?_, ?_, ?_⟩
  · intro c; rfl
  · intro c st hle
    simp only [jsMatchDuration]
    rw [if_neg (by omega)]
  · intro c st hlt
    simp only [jsMatchDuration]
    rw [if_pos hlt]
  · intro matchId m now h e he hne
    obtain ⟨w, p, o, hpo⟩ := onMatchDeleted_new_entry he hne
    subst hpo
    exact ⟨rfl, hnn now m.start_at⟩
  · intro req now1 now2 s r s1 e hcm he hne
    obtain ⟨mp, w, p, o, hmem, hpo⟩ := completeMatch_new_entry hcm he hne
    subst hpo
    exact ⟨hnn now2 mp.2.start_at, mp, hmem, rfl⟩

/-- Claim C7, witness: the clamped, the unclamped and the missing-start
cases at concrete inputs. -/
theorem C7_witness :
    jsMatchDuration 5 (some 10) = 0 ∧
    jsMatchDuration 20 (some 10) = 20 - 10 ∧
    jsMatchDuration 7 none = 0 :=
  ⟨C7_match_duration_clamped.2.2.2.1 5 10 (by decide),
   C7_match_duration_clamped.2.2.1 20 10 (by decide),
   C7_match_duration_clamped.2.1 7⟩

/-- Claim C8: every history entry written by either settlement path gets
`created_at = matchCreatedAt || completedAt`: the settlement's completedAt
timestamp when the match's creation timestamp is absent, the match's
creation timestamp otherwise. -/
theorem C8_created_at_fallback :
    (∀ (matchId : String) (player_states : List (String × PlayerState))
       (created_at start_at : Option Int) (puzzle_id : Option String)
       (winner : Option String) (completedAt : Int) (p o : String),
       (historyEntryFor matchId player_states created_at start_at puzzle_id winner
          completedAt p o).created_at = created_at.getD completedAt) ∧
    (∀ (matchId : String) (m : Match) (now : Int) (h : List HistoryEntry)
       (e : HistoryEntry), e ∈ onMatchDeleted matchId (some m) now h → e ∉ h →
       ((m.created_at = none → e.created_at = now) ∧
        (∀ c, m.created_at = some c → e.created_at = c))) ∧
    (∀ (req : CompleteRequest) (now1 now2 : Int) (s : Store)
       (r : CompleteMatchResponse) (s1 : Store) (e : HistoryEntry),
       completeMatch req now1 now2 s = .ok (r, s1) →
       e ∈ s1.match_history → e ∉ s.match_history →
       ∃ mp, mp ∈ s.«matches» ∧
         (mp.2.created_at = none → e.created_at = now2) ∧
         (∀ c, mp.2.created_at = some c → e.created_at = c)) := by
  refine ⟨?_, ?_, ?_⟩
  · intro matchId player_states created_at start_at puzzle_id winner completedAt p o
    rfl
  · intro matchId m now h e he hne
    obtain ⟨w, p, o, hpo⟩ := onMatchDeleted_new_entry he hne
    subst hpo
    constructor
    · intro hnone
      show (m.created_at).getD now = now
      rw [hnone]
      rfl
    · intro c hsome
      show (m.created_at).getD now = c
      rw [hsome]
      rfl
  · intro req now1 now2 s r s1 e hcm he hne
    obtain ⟨mp, w, p, o, hmem, hpo⟩ := completeMatch_new_entry hcm he hne
    subst hpo
    refine ⟨mp, hmem, ?_, ?_⟩
    · intro hnone
      show (mp.2.created_at).getD now2 = now2
      rw [hnone]
      rfl
    · intro c hsome
      show (mp.2.created_at).getD now2 = c
      rw [hsome]
      rfl

/-- Claim C8, witness: removal settlement of a match with no creation
timestamp stamps the entry with the settlement's completedAt (400). -/
theorem C8_witness :
    (historyEntryFor "m8" c8Match.player_states c8Match.created_at c8Match.start_at
       c8Match.puzzle_id (some "alice") 400 "alice" "bob").created_at = 400 :=
  (C8_created_at_fallback.2.1 "m8" c8Match 400 [] _ (by decide) (by decide)).1 rfl

/-- The comparator relation of the candidate query coincides with the
ordering of `joined_at`. -/
theorem cmpJoinedAt_le_iff (a b : QueueEntry) :
    cmpJoinedAt a b ≤ 0 ↔ a.joined_at ≤ b.joined_at := by
  unfold cmpJoinedAt
  split_ifs <;> omega

/-- Claim C4: the pairing transaction's candidate query keeps only queue
entries with `joined_at` strictly past the cutoff `now − 45s`, sorted by
`joined_at` ascending and limited to the 2 earliest such entries, and the
partner is chosen from that result — so a stale entry is never selected
as a partner. -/
theorem C4_queue_ttl_filter :
    (∀ (match_queue : List QueueEntry) (cutoff : Int) (e : QueueEntry),
       e ∈ candidateQuery match_queue cutoff → cutoff < e.joined_at) ∧
    (∀ (match_queue : List QueueEntry) (cutoff : Int),
       (candidateQuery match_queue cutoff).length ≤ 2) ∧
    (∀ (match_queue : List QueueEntry) (cutoff : Int),
       (candidateQuery match_queue cutoff).Pairwise
         (fun x y => x.joined_at ≤ y.joined_at)) ∧
    (∀ (match_queue : List QueueEntry) (cutoff : Int) (e f : QueueEntry),
       e ∈ candidateQuery match_queue cutoff →
       f ∈ match_queue → cutoff < f.joined_at →
       f ∉ candidateQuery match_queue cutoff →
       e.joined_at ≤ f.joined_at) ∧
    (∀ (match_queue : List QueueEntry) (cutoff : Int) (userId : String)
       (p : QueueEntry),
       findAvailablePartner match_queue cutoff userId = some p →
       p ∈ candidateQuery match_queue cutoff ∧ cutoff < p.joined_at) ∧
    (∀ (userId : String) (snap : QueueEntry) (now : Int) (matchId : String)
       (startAt : Int) (puzzleId : String) (s : PairingStore),
       (onQueueUpdatedTx userId snap now matchId startAt puzzleId s).«matches» ≠
         s.«matches» →
       ∃ p, findAvailablePartner s.match_queue (now - QUEUE_TTL_SECONDS * 1000)
              userId = some p ∧
            now - QUEUE_TTL_SECONDS * 1000 < p.joined_at) := by
  have hmemq : ∀ (q : List QueueEntry) (cutoff : Int) (e : QueueEntry),
      e ∈ candidateQuery q cutoff → cutoff < e.joined_at := by
    intro q cutoff e he
    have h1 : e ∈ jsSort cmpJoinedAt (q.filter (fun x => cutoff < x.joined_at)) :=
      List.mem_of_mem_take he
    have h2 : e ∈ q.filter (fun x => cutoff < x.joined_at) := by
      unfold jsSort at h1
      exact (List.perm_insertionSort _ _).mem_iff.mp h1
    exact of_decide_eq_true (List.mem_filter.mp h2).2
  have hsorted : ∀ (q : List QueueEntry) (cutoff : Int),
      List.Sorted (fun a b => cmpJoinedAt a b ≤ 0)
        (jsSort cmpJoinedAt (q.filter (fun x => cutoff < x.joined_at))) := by
    intro q cutoff
    unfold jsSort
    exact List.sorted_insertionSort _ _
  have hpart : ∀ (q : List QueueEntry) (cutoff : Int) (userId : String)
      (p : QueueEntry), findAvailablePartner q cutoff userId = some p →
      p ∈ candidateQuery q cutoff ∧ cutoff < p.joined_at := by
    intro q cutoff userId p hfp
    unfold findAvailablePartner at hfp
    have hmem : p ∈ candidateQuery q cutoff := List.mem_of_find?_eq_some hfp
    exact ⟨hmem, hmemq q cutoff p hmem⟩
  refine ⟨hmemq, ?_, ?_, ?_, hpart, ?_⟩
  · intro q cutoff
    exact List.length_take_le 2 _
  · intro q cutoff
    have := (hsorted q cutoff).sublist (List.take_sublist 2 _)
    exact this.imp (fun hxy => (cmpJoinedAt_le_iff _ _).mp hxy)
  · intro q cutoff e f he hf hcut hnot
    have hperm := List.perm_insertionSort (fun a b => cmpJoinedAt a b ≤ 0)
      (q.filter (fun x => cutoff < x.joined_at))
    have hfl : f ∈ jsSort cmpJoinedAt (q.filter (fun x => cutoff < x.joined_at)) := by
      unfold jsSort
      exact hperm.mem_iff.mpr (List.mem_filter.mpr ⟨hf, decide_eq_true hcut⟩)
    have hpw := hsorted q cutoff
    rw [← List.take_append_drop 2
      (jsSort cmpJoinedAt (q.filter (fun x => cutoff < x.joined_at)))] at hpw
    have hx := (List.pairwise_append.mp hpw).2.2
    have hfd : f ∈ (jsSort cmpJoinedAt
        (q.filter (fun x => cutoff < x.joined_at))).drop 2 := by
      have hfl2 : f ∈ (jsSort cmpJoinedAt
          (q.filter (fun x => cutoff < x.joined_at))).take 2 ++
          (jsSort cmpJoinedAt (q.filter (fun x => cutoff < x.joined_at))).drop 2 := by
        rw [List.take_append_drop]
        exact hfl
      rcases List.mem_append.mp hfl2 with hh | hh
      · exact absurd hh hnot
      · exact hh
    exact (cmpJoinedAt_le_iff _ _).mp (hx e he f hfd)
  · intro userId snap now matchId startAt puzzleId s hne
    rcases hq : s.match_queue.find? (fun e => e.userId == userId) with _ | cur
    · have heq : onQueueUpdatedTx userId snap now matchId startAt puzzleId s = s := by
        unfold onQueueUpdatedTx
        rw [hq]
      rw [heq] at hne
      exact absurd rfl hne
    · rcases hp : findAvailablePartner s.match_queue
          (now - QUEUE_TTL_SECONDS * 1000) userId with _ | partner
      · have heq : onQueueUpdatedTx userId snap now matchId startAt puzzleId s = s := by
          simp only [onQueueUpdatedTx, hq, hp]
        rw [heq] at hne
        exact absurd rfl hne
      · exact ⟨partner, rfl, (hpart s.match_queue _ userId partner hp).2⟩

/-- Claim C4, witness: in a queue holding a stale entry (joined at 500,
before the cutoff 1000) and two fresh ones, the partner found for "u2" is
the fresh entry "u3", which lies in the candidate query and past the
cutoff. -/
theorem C4_witness :
    (⟨"u3", none, none, 45500⟩ : QueueEntry) ∈ candidateQuery c4Queue 1000 ∧
    (1000 : Int) < QueueEntry.joined_at ⟨"u3", none, none, 45500⟩ :=
  ⟨(C4_queue_ttl_filter.2.2.2.2.1 c4Queue 1000 "u2" _ rfl).1,
   C4_queue_ttl_filter.1 c4Queue 1000 ⟨"u3", none, none, 45500⟩
     (C4_queue_ttl_filter.2.2.2.2.1 c4Queue 1000 "u2" _ rfl).1⟩

end Turnix
